import Mathlib

/-!
# Verification of the gomjpeg stream-control core

A shallow embedding of the `gomjpeg` MJPEG client (the refactored draft of
the package) together with theorems settling the specification's claims.

Go strings and byte buffers are modelled as `List Char` (`Str`); the Go
standard-library string helpers used by the source (`strings.HasPrefix`,
`strings.TrimSpace`, `strings.Split`, `strings.TrimPrefix`,
`strings.Contains`, `strconv.Atoi`, `strconv.ParseBool`) are translated
structurally below.  The external JPEG decoder (`jpeg.Decode`) is an
abstract parameter `dec : Str → Option Image`, as the spec treats it as an
external collaborator.  Machine `int` is modelled as `Int`.
-/

namespace Gomjpeg

/-- Go `string` / `[]byte`, modelled as a list of characters. -/
abbrev Str := List Char

/-- Decoded images are abstract; we only track identity. -/
abbrev Image := Nat

/-- Translation of `StatusCode` from the source: the published stream state. -/
inductive StatusCode where
  | StatusPlaying
  | StatusStopped
  | StatusError
  | StatusPaused
deriving DecidableEq, Repr

open StatusCode

/-! ## Go standard-library string helpers (structural translations) -/

/-- Model of `strings.HasPrefix(s, pre)`, with the prefix as first argument. -/
def goHasPfx : Str → Str → Bool
  | [], _ => true
  | _ :: _, [] => false
  | p :: ps, c :: cs => p = c && goHasPfx ps cs

/-- The whitespace class of Go `unicode.IsSpace` (ASCII plus NEL, NBSP). -/
def goIsSpace (c : Char) : Bool :=
  c = ' ' || c = '\t' || c = '\n' || c = '\u000b' || c = '\u000c' ||
  c = '\r' || c = '\u0085' || c = ' '

/-- Model of `strings.TrimSpace`: drop leading and trailing whitespace. -/
def goTrimSpace (s : Str) : Str :=
  ((s.dropWhile goIsSpace).reverse.dropWhile goIsSpace).reverse

/-- Model of `strings.Split(s, sep)` for a one-character separator. -/
def goSplit (sep : Char) : Str → List Str
  | [] => [[]]
  | c :: cs =>
    match goSplit sep cs with
    | [] => [[]]
    | h :: t => if c = sep then [] :: h :: t else (c :: h) :: t

/-- Model of `strings.TrimPrefix(s, pre)`: drop `pre` when it is a leading segment. -/
def goTrimPfx (pre s : Str) : Str :=
  if goHasPfx pre s then s.drop pre.length else s

/-- Model of `strings.Contains(s, sub)`: substring occurrence test. -/
def goContains (sub : Str) : Str → Bool
  | [] => goHasPfx sub []
  | c :: cs => goHasPfx sub (c :: cs) || goContains sub cs

/-- Decimal digit run for `strconv`: value of a nonempty all-digit list. -/
def goDigits : Str → Option Nat
  | [] => none
  | [c] => if c.isDigit then some (c.toNat - '0'.toNat) else none
  | c :: cs =>
    if c.isDigit then
      match goDigits cs with
      | some n => some ((c.toNat - '0'.toNat) * 10 ^ cs.length + n)
      | none => none
    else none

/-- Model of `strconv.Atoi`: optional sign, then at least one digit, nothing else;
64-bit range check as on a 64-bit platform. -/
def goAtoi (s : Str) : Option Int :=
  let core : Str → Option Int := fun t =>
    match goDigits t with
    | some n => some (n : Int)
    | none => none
  let v : Option Int :=
    match s with
    | [] => none
    | '+' :: rest => core rest
    | '-' :: rest => (core rest).map (fun n => -n)
    | _ => core s
  match v with
  | some n =>
    if n > 9223372036854775807 ∨ n < -9223372036854775808 then none else some n
  | none => none

/-- Model of `strconv.ParseBool`: the exact literal forms Go accepts. -/
def goParseBool (s : Str) : Option Bool :=
  if s = "1".data ∨ s = "t".data ∨ s = "T".data ∨ s = "TRUE".data ∨
     s = "true".data ∨ s = "True".data then some true
  else if s = "0".data ∨ s = "f".data ∨ s = "F".data ∨ s = "FALSE".data ∨
     s = "false".data ∨ s = "False".data then some false
  else none

/-! ## Configuration: `MjpegOpts`, `loadEnvOverrides`, `NewMjpeg` -/

/-- Translation of `MjpegOpts` from the source. -/
structure MjpegOpts where
  URL : Str
  AutoStopTimer : Int
  Resize : Bool
  Width : Int
  Height : Int
  EnableLog : Bool
deriving DecidableEq, Repr

/-- The `MJPEG_URL` statement of `loadEnvOverrides`. -/
def ovURL (env : String → Str) (o : MjpegOpts) : MjpegOpts :=
  if env "MJPEG_URL" ≠ [] then { o with URL := env "MJPEG_URL" } else o

/-- The `MJPEG_AUTOSTOP_TIMER` statement of `loadEnvOverrides`. -/
def ovAuto (env : String → Str) (o : MjpegOpts) : MjpegOpts :=
  if env "MJPEG_AUTOSTOP_TIMER" ≠ [] then
    match goAtoi (env "MJPEG_AUTOSTOP_TIMER") with
    | some v => { o with AutoStopTimer := v }
    | none => o
  else o

/-- The `MJPEG_RESIZE` statement of `loadEnvOverrides`. -/
def ovResize (env : String → Str) (o : MjpegOpts) : MjpegOpts :=
  if env "MJPEG_RESIZE" ≠ [] then
    match goParseBool (env "MJPEG_RESIZE") with
    | some v => { o with Resize := v }
    | none => o
  else o

/-- The `MJPEG_WIDTH` statement of `loadEnvOverrides`. -/
def ovWidth (env : String → Str) (o : MjpegOpts) : MjpegOpts :=
  if env "MJPEG_WIDTH" ≠ [] then
    match goAtoi (env "MJPEG_WIDTH") with
    | some v => { o with Width := v }
    | none => o
  else o

/-- The `MJPEG_HEIGHT` statement of `loadEnvOverrides`. -/
def ovHeight (env : String → Str) (o : MjpegOpts) : MjpegOpts :=
  if env "MJPEG_HEIGHT" ≠ [] then
    match goAtoi (env "MJPEG_HEIGHT") with
    | some v => { o with Height := v }
    | none => o
  else o

/-- The `MJPEG_ENABLE_LOG` statement of `loadEnvOverrides`. -/
def ovLog (env : String → Str) (o : MjpegOpts) : MjpegOpts :=
  if env "MJPEG_ENABLE_LOG" ≠ [] then
    match goParseBool (env "MJPEG_ENABLE_LOG") with
    | some v => { o with EnableLog := v }
    | none => o
  else o

/-- Translation of `loadEnvOverrides` from the source, over an environment function
(`os.Getenv` returns the empty string for unset variables): the six
override statements in source order. -/
def loadEnvOverrides (env : String → Str) (opts : MjpegOpts) : MjpegOpts :=
  ovLog env (ovHeight env (ovWidth env (ovResize env (ovAuto env
    (ovURL env opts)))))

/-- Spec-side helper: keep the caller value unless the variable is set
(non-empty); a string variable always "parses". -/
def pickRaw (v orig : Str) : Str :=
  if v = [] then orig else v

/-- Spec-side helper: keep the caller value unless the variable is set and
parses at the field's type. -/
def pickWith {α : Type} (parse : Str → Option α) (v : Str) (orig : α) : α :=
  if v = [] then orig else
    match parse v with
    | some x => x
    | none => orig

/-- The observable result of `NewMjpeg`: the session options after env
overrides, and the initial published state (`init` sets `StatusStopped`). -/
structure MjpegInit where
  opts : MjpegOpts
  status : StatusCode
deriving DecidableEq, Repr

/-- Translation of `NewMjpeg` from the source: applies `loadEnvOverrides` to the caller's
options and initialises the published state to `StatusStopped`. -/
def NewMjpeg (env : String → Str) (opts : MjpegOpts) : MjpegInit :=
  { opts := loadEnvOverrides env opts, status := StatusStopped }

/-! ## `parseContentTypeAndBoundary` -/

/-- The loop body of `parseContentTypeAndBoundary`: first `;`-separated
part whose trimmed form starts with `boundary=` yields `"--" + value`. -/
def findBoundary : List Str → Str
  | [] => []
  | p :: ps =>
    let t := goTrimSpace p
    if goHasPfx "boundary=".data t then
      "--".data ++ goTrimPfx "boundary=".data t
    else findBoundary ps

/-- Translation of `parseContentTypeAndBoundary` from the source.  The second component is
the returned `error`, which the source always leaves `nil`. -/
def parseContentTypeAndBoundary (contentType : Str) : Str × Option Str :=
  let boundary :=
    if goHasPfx "multipart/x-mixed-replace".data contentType then
      findBoundary (goSplit ';' contentType)
    else []
  (if boundary = [] then "--frame".data else boundary, none)

/-! ## The decode loop (`decodeStream`, `readImageHeaders`,
`processAndSendImage`)

The reader task's observable state.  `slot` is the content of the
capacity-1 `ImageStream` channel; `delivered`/`dropped` record the
outcomes of the non-blocking sends; `armEvents` records every
`time.AfterFunc` arming (with its duration); `closed` records closure of
`ImageStream`, which in the source happens only in `startFetching`'s
deferred teardown — no step of the decode loop ever sets it. -/
structure DState where
  status : StatusCode
  slot : Option Image
  delivered : List Image
  dropped : List Image
  armEvents : List Int
  timerStarted : Bool
  exited : Bool
  closed : Bool
deriving DecidableEq, Repr

/-- The reader's state right after the `StartStream` handler spawned it:
status `StatusPlaying`, empty channel, local `timerStarted := false`. -/
def initD : DState :=
  { status := StatusPlaying, slot := none, delivered := [], dropped := [],
    armEvents := [], timerStarted := false, exited := false, closed := false }

/-- Model of `bufio.Reader.ReadString` at delimiter newline: the line including its newline and the
rest, or `none` when the reader is exhausted first (the Go error path; the
source discards the partial data it returns). -/
def readLine : Str → Option (Str × Str)
  | [] => none
  | c :: cs =>
    if c = '\n' then some ([c], cs)
    else
      match readLine cs with
      | none => none
      | some (l, r) => some (c :: l, r)

/-- Model of the `fmt.Sscanf` call on a `Content-Length:` header line: after
the literal, skip spaces, parse an optionally signed digit run; on a parse
failure the previous value is kept. -/
def sscanfContentLength (line : Str) (old : Int) : Int :=
  let rest := (line.drop "Content-Length:".data.length).dropWhile
    (fun c => c = ' ' || c = '\t')
  let signed : Str → Option Int := fun t =>
    match t with
    | '-' :: u => (goDigits (u.takeWhile Char.isDigit)).map (fun n => -(n : Int))
    | '+' :: u => (goDigits (u.takeWhile Char.isDigit)).map (fun n => (n : Int))
    | u => (goDigits (u.takeWhile Char.isDigit)).map (fun n => (n : Int))
  match signed rest with
  | some v => v
  | none => old

/-- The header loop of `readImageHeaders`, fuelled (each line consumes at
least one character, so `input.length + 1` fuel always suffices). -/
def hdrsLoop : Nat → Int → Str → Option (Int × Str)
  | 0, _, _ => none
  | fuel + 1, cl, input =>
    match readLine input with
    | none => none
    | some (line, rest) =>
      if goTrimSpace line = [] then some (cl, rest)
      else if goHasPfx "Content-Length:".data line then
        hdrsLoop fuel (sscanfContentLength line cl) rest
      else hdrsLoop fuel cl rest

/-- Translation of `readImageHeaders` from the source: read header lines until a blank
line, tracking `Content-Length`; `none` is the error return (the reader is
exhausted before the blank line terminates the block). -/
def readImageHeaders (input : Str) : Option (Int × Str) :=
  hdrsLoop (input.length + 1) 0 input

/-- Translation of `processAndSendImage` from the source: skip empty payloads; decode;
on decode failure log and return with no state change; otherwise a
non-blocking send on the capacity-1 channel (`select`/`default`): a free
slot takes the new frame (and the first successful delivery arms the
auto-stop timer when the configured duration is positive), a full slot
drops the new frame. -/
def processAndSendImage (dec : Str → Option Image) (autoStop : Int)
    (st : DState) (jpegData : Str) : DState :=
  if jpegData = [] then st
  else
    match dec jpegData with
    | none => st
    | some img =>
      match st.slot with
      | none =>
        if st.timerStarted = false ∧ autoStop > 0 then
          { st with slot := some img, delivered := st.delivered ++ [img],
                    armEvents := st.armEvents ++ [autoStop],
                    timerStarted := true }
        else { st with slot := some img, delivered := st.delivered ++ [img] }
      | some _ => { st with dropped := st.dropped ++ [img] }

/-- One event the reader's `select` can observe at the top of an
iteration, or an action of its environment: `stop` is `stopDecodeCh`
being closed, `pauseSig`/`resumeSig` are control commands arriving on
`internalCH`, and `drain` is the consumer receiving the buffered frame
from `ImageStream` (clearing the slot). -/
inductive Ev where
  | stop
  | pauseSig
  | resumeSig
  | drain
deriving DecidableEq, Repr

/-- One iteration of the `decodeStream` loop.  With no event pending
(`none`), the `default` branch runs: a paused reader sleeps; otherwise a
line is read (exhaustion makes the iteration a no-op — the `break` only
leaves the `select`, so the loop spins); a line containing the boundary
token triggers header parsing, an exact `Content-Length` read
(`io.ReadFull`), and `processAndSendImage`.  Header or payload read
errors set `StatusError` and continue. -/
def stepEv (dec : Str → Option Image) (autoStop : Int) (boundary : Str)
    (ev : Option Ev) (st : DState) (input : Str) : DState × Str :=
  if st.exited then (st, input)
  else
    match ev with
    | some .stop => ({ st with exited := true }, input)
    | some .pauseSig => ({ st with status := StatusPaused }, input)
    | some .resumeSig => ({ st with status := StatusPlaying }, input)
    | some .drain => ({ st with slot := none }, input)
    | none =>
      if st.status = StatusPaused then (st, input)
      else
        match readLine input with
        | none => (st, [])
        | some (line, rest) =>
          if goContains boundary line then
            match readImageHeaders rest with
            | none => ({ st with status := StatusError }, [])
            | some (cl, rest2) =>
              if rest2.length < cl.toNat then
                ({ st with status := StatusError }, [])
              else
                (processAndSendImage dec autoStop st (rest2.take cl.toNat),
                 rest2.drop cl.toNat)
          else (st, rest)

/-- A run of the decode loop: one `stepEv` per schedule entry. -/
def run (dec : Str → Option Image) (autoStop : Int) (boundary : Str) :
    List (Option Ev) → DState → Str → DState × Str
  | [], st, input => (st, input)
  | ev :: evs, st, input =>
    let p := stepEv dec autoStop boundary ev st input
    run dec autoStop boundary evs p.1 p.2

/-! ## `ResetTimer` -/

/-- The timer-related fields of `Mjpeg` that `ResetTimer` touches, plus the
reader-local `timerStarted` flag (which `ResetTimer` cannot see). -/
structure TimerState where
  autoStopTimer : Int
  timer : Option Int
  timerStarted : Bool
deriving DecidableEq, Repr

/-- Translation of `ResetTimer(duration)` from the source: stop any live timer, adopt the
new duration when positive, and arm `time.AfterFunc` with the (possibly
updated) configured duration.  `timer = some d` models the single live
`*time.Timer` armed for `d` seconds; replacing the field models the
`timer.Stop()` call cancelling the prior one. -/
def resetTimer (ts : TimerState) (duration : Int) : TimerState :=
  let ts :=
    if duration > 0 then { ts with autoStopTimer := duration } else ts
  { ts with timer := some ts.autoStopTimer }

/-! ## The stop protocol (`Stop`, the `StopStream` case of `startFetching`,
and `decodeStream`'s exit)

Three concurrent participants: the caller of `Stop`, the supervisor
(`startFetching`), and the reader (`decodeStream`).  `Stop` performs a
rendezvous send of `StopStream` on the unbuffered `internalCH` — and BOTH
the supervisor's `select` and the reader's `select` receive from
`internalCH`, so either can complete the rendezvous.  When the supervisor
receives it, it closes `stopDecodeCh`, waits on the `WaitGroup`, and its
deferred function releases the response body, closes `ImageStream` and
publishes `StatusStopped` — in that order.  When the reader receives it,
its `switch control` has cases only for `PauseStream` and `ResumeStream`:
a `StopStream` matches neither, the command is silently discarded, and no
teardown happens at all. -/

/-- Where the caller of `Stop` stands. -/
inductive CallerPh where
  | beforeStop
  | returned
deriving DecidableEq, Repr

/-- Where the supervisor (`startFetching`) stands during shutdown. -/
inductive SupPh where
  | loop
  | gotStop
  | chClosed
  | wgDone
  | bodyDone
  | streamDone
  | done
deriving DecidableEq, Repr

/-- Where the reader (`decodeStream`) stands. -/
inductive RdrPh where
  | running
  | exitedPh
deriving DecidableEq, Repr

/-- Joint state of the three participants during a stop. -/
structure StopState where
  caller : CallerPh
  sup : SupPh
  rdr : RdrPh
  stopChClosed : Bool
  bodyReleased : Bool
  imgChClosed : Bool
  status : StatusCode
deriving DecidableEq, Repr

/-- A session with an active reader, just before `Stop` is called. -/
def stopInit : StopState :=
  { caller := .beforeStop, sup := .loop, rdr := .running,
    stopChClosed := false, bodyReleased := false, imgChClosed := false,
    status := StatusPlaying }

/-- Interleaved small steps of the stop protocol, as the source orders
them.  A rendezvous completes the caller's channel send together with a
receive by EITHER the supervisor (`rendezvous`) or the reader
(`rendezvousReader` — the reader's `switch` drops a `StopStream`, so
nothing but the caller's return happens); everything after a rendezvous is
concurrent with the caller having already returned from `Stop`. -/
inductive StopStep : StopState → StopState → Prop where
  | rendezvous (s : StopState)
      (h1 : s.caller = .beforeStop) (h2 : s.sup = .loop) :
      StopStep s { s with caller := .returned, sup := .gotStop }
  | rendezvousReader (s : StopState)
      (h1 : s.caller = .beforeStop) (h2 : s.rdr = .running) :
      StopStep s { s with caller := .returned }
  | closeStopCh (s : StopState) (h : s.sup = .gotStop) :
      StopStep s { s with sup := .chClosed, stopChClosed := true }
  | readerExit (s : StopState)
      (h1 : s.rdr = .running) (h2 : s.stopChClosed = true) :
      StopStep s { s with rdr := .exitedPh }
  | wgWait (s : StopState)
      (h1 : s.sup = .chClosed) (h2 : s.rdr = .exitedPh) :
      StopStep s { s with sup := .wgDone }
  | releaseBody (s : StopState) (h : s.sup = .wgDone) :
      StopStep s { s with sup := .bodyDone, bodyReleased := true }
  | closeStream (s : StopState) (h : s.sup = .bodyDone) :
      StopStep s { s with sup := .streamDone, imgChClosed := true }
  | publishStopped (s : StopState) (h : s.sup = .streamDone) :
      StopStep s { s with sup := .done, status := StatusStopped }

/-- Reachability in the stop protocol. -/
def StopReaches (s t : StopState) : Prop :=
  Relation.ReflTransGen StopStep s t

/-- Progress rank of the supervisor's shutdown sequence. -/
def supRank : SupPh → Nat
  | .loop => 0
  | .gotStop => 1
  | .chClosed => 2
  | .wgDone => 3
  | .bodyDone => 4
  | .streamDone => 5
  | .done => 6

/-! ## `Start` (the per-call effect and the `StartStream` handler) -/

/-- Observable per-session resources affected by `Start`: the current
`ImageStream` channel (by generation number), channels closed so far, and
how many supervisor (`startFetching`) and reader (`decodeStream`)
goroutines have been spawned and are alive. -/
structure SessState where
  status : StatusCode
  imageStream : Option Nat
  nextGen : Nat
  closedGens : List Nat
  supervisorCount : Nat
  readerCount : Nat
deriving DecidableEq, Repr

/-- A fresh session as `NewMjpeg` leaves it. -/
def sessInit : SessState :=
  { status := StatusStopped, imageStream := none, nextGen := 0,
    closedGens := [], supervisorCount := 0, readerCount := 0 }

/-- One call of `Start` together with the handling of the `StartStream`
command it sends: `Start` closes any existing `ImageStream`, allocates a
replacement, unconditionally spawns a new `startFetching` goroutine and
sends `StartStream`; the receiving supervisor is a no-op when the state is
already `StatusPlaying`, and otherwise publishes `StatusPlaying`, performs
the HTTP GET (modelled as succeeding) and spawns the `decodeStream`
reader. -/
def startCall (s : SessState) : SessState :=
  let s1 : SessState :=
    { s with
      closedGens :=
        match s.imageStream with
        | some g => s.closedGens ++ [g]
        | none => s.closedGens,
      imageStream := some s.nextGen,
      nextGen := s.nextGen + 1,
      supervisorCount := s.supervisorCount + 1 }
  if s1.status = StatusPlaying then s1
  else { s1 with status := StatusPlaying, readerCount := s1.readerCount + 1 }

/-- Inductive invariant tying the arm events of the watchdog to the first
successful delivery: the timer has been armed (once, with the configured
duration) exactly when the duration is positive and some frame has been
delivered. -/
def timerInv (autoStop : Int) (st : DState) : Prop :=
  st.armEvents = (if st.timerStarted = true then [autoStop] else []) ∧
  (st.timerStarted = true ↔ (0 < autoStop ∧ st.delivered ≠ []))

/-- The state after the reader wins the `Stop` rendezvous and drops the
command: the caller has returned from `Stop`, the supervisor is still in
its loop, the reader still runs, and no teardown has happened. -/
def stopAfterReaderDrop : StopState :=
  { stopInit with caller := .returned }

/-- Inductive invariant of the stop protocol. -/
def stopInv (s : StopState) : Prop :=
  (1 ≤ supRank s.sup → s.caller = .returned) ∧
  (s.stopChClosed = true ↔ 2 ≤ supRank s.sup) ∧
  (3 ≤ supRank s.sup → s.rdr = .exitedPh) ∧
  (s.bodyReleased = true ↔ 4 ≤ supRank s.sup) ∧
  (s.imgChClosed = true ↔ 5 ≤ supRank s.sup) ∧
  (s.status = StatusStopped ↔ supRank s.sup = 6) ∧
  (s.rdr = .exitedPh → s.stopChClosed = true)

/-- The stop-protocol state after the complete teardown. -/
def stopDone : StopState :=
  { caller := .returned, sup := .done, rdr := .exitedPh, stopChClosed := true,
    bodyReleased := true, imgChClosed := true, status := StatusStopped }

/-! ## Helper lemmas -/

theorem goHasPfx_append (pre r : Str) : goHasPfx pre (pre ++ r) = true := by
  induction pre with
  | nil => rfl
  | cons c cs ih => simp [goHasPfx, ih]

theorem findBoundary_eq_nil (l : List Str)
    (h : ∀ p ∈ l, goHasPfx "boundary=".data (goTrimSpace p) = false) :
    findBoundary l = [] := by
  induction l with
  | nil => rfl
  | cons p ps ih =>
    have hp := h p (List.mem_cons_self p ps)
    rw [findBoundary]
    simp only [hp, Bool.false_eq_true, if_false]
    exact ih fun q hq => h q (List.mem_cons_of_mem p hq)

theorem findBoundary_two (p1 p2 t : Str)
    (hp1 : goHasPfx "boundary=".data (goTrimSpace p1) = false)
    (hp2 : goTrimSpace p2 = "boundary=".data ++ t) :
    findBoundary [p1, p2] = "--".data ++ t := by
  rw [findBoundary]
  simp only [hp1, Bool.false_eq_true, if_false]
  rw [findBoundary]
  simp only [hp2, goHasPfx_append, if_true]
  rw [goTrimPfx, if_pos (goHasPfx_append _ _)]
  simp [List.drop_left]

/-! ## C7: `ResetTimer` -/

/-- C7: `ResetTimer(newDuration)` replaces any outstanding watchdog with a
freshly armed one: armed with `newDuration` when `newDuration > 0` (which
also becomes the new configured duration), and with the previously
configured duration otherwise; the result never depends on whether a frame
has been delivered yet in the current arm cycle (`timerStarted`). -/
theorem c7_resetTimer_rearm (ts : TimerState) (d : Int) :
    (0 < d → resetTimer ts d =
      { autoStopTimer := d, timer := some d,
        timerStarted := ts.timerStarted }) ∧
    (d ≤ 0 → resetTimer ts d = { ts with timer := some ts.autoStopTimer }) ∧
    (resetTimer ts d).timer.isSome = true ∧
    (∀ b, resetTimer { ts with timerStarted := b } d =
      { resetTimer ts d with timerStarted := b }) := by
  by_cases h : 0 < d
  · refine ⟨fun _ => ?_, fun h' => absurd h (by omega), ?_, fun b => ?_⟩ <;>
      simp [resetTimer, h]
  · refine ⟨fun h' => absurd h' h, fun _ => ?_, ?_, fun b => ?_⟩ <;>
      simp [resetTimer, h]

/-- C7 witness: resetting a disabled-timer session (`AutoStopTimer = -1`,
no live timer, no frame delivered) with `5` arms a 5-second watchdog and
makes `5` the configured duration. -/
theorem c7_witness :
    resetTimer ⟨-1, none, false⟩ 5 = ⟨5, some 5, false⟩ ∧
    resetTimer ⟨7, some 7, true⟩ 0 = ⟨7, some 7, true⟩ := by
  constructor
  · exact (c7_resetTimer_rearm ⟨-1, none, false⟩ 5).1 (by norm_num)
  · exact (c7_resetTimer_rearm ⟨7, some 7, true⟩ 0).2.1 (by norm_num)

/-! ## C8: boundary derivation -/

/-- C8: deriving the boundary token never fails (the returned error is
always `nil`); when the content type is not `multipart/x-mixed-replace` or
no `;`-separated parameter starts with `boundary=`, the result is the
default token `--frame`; and when such a parameter is present its value is
returned prefixed with the multipart marker `--`. -/
theorem c8_boundary_default (ct : Str) :
    (parseContentTypeAndBoundary ct).2 = none ∧
    (goHasPfx "multipart/x-mixed-replace".data ct = false ∨
      (∀ p ∈ goSplit ';' ct,
        goHasPfx "boundary=".data (goTrimSpace p) = false) →
      (parseContentTypeAndBoundary ct).1 = "--frame".data) ∧
    (∀ p1 p2 t : Str,
      goHasPfx "multipart/x-mixed-replace".data ct = true →
      goSplit ';' ct = [p1, p2] →
      goHasPfx "boundary=".data (goTrimSpace p1) = false →
      goTrimSpace p2 = "boundary=".data ++ t →
      (parseContentTypeAndBoundary ct).1 = "--".data ++ t) := by
  refine ⟨rfl, fun h => ?_, fun p1 p2 t hmp hsplit hp1 hp2 => ?_⟩
  · rcases h with h | h
    · simp [parseContentTypeAndBoundary, h]
    · simp [parseContentTypeAndBoundary, findBoundary_eq_nil _ h]
  · have hfb : findBoundary (goSplit ';' ct) = "--".data ++ t := by
      rw [hsplit]
      exact findBoundary_two p1 p2 t hp1 hp2
    simp [parseContentTypeAndBoundary, hmp, hfb]

/-- C8 witness: a plain `text/html` content type falls back to `--frame`
with a `nil` error, and `multipart/x-mixed-replace; boundary=abc` yields
`--abc`. -/
theorem c8_witness :
    ((parseContentTypeAndBoundary "text/html".data).2 = none ∧
      (parseContentTypeAndBoundary "text/html".data).1 = "--frame".data) ∧
    (parseContentTypeAndBoundary
      "multipart/x-mixed-replace; boundary=abc".data).1 =
      "--".data ++ "abc".data := by
  refine ⟨⟨(c8_boundary_default "text/html".data).1, ?_⟩, ?_⟩
  · exact (c8_boundary_default "text/html".data).2.1 (Or.inl (by decide))
  · exact (c8_boundary_default
      "multipart/x-mixed-replace; boundary=abc".data).2.2
      "multipart/x-mixed-replace".data (' ' :: "boundary=abc".data)
      "abc".data (by decide) (by decide) (by decide) (by decide)

/-! ## C10: environment overrides -/

theorem ovURL_eq (env : String → Str) (o : MjpegOpts) :
    ovURL env o = { o with URL := pickRaw (env "MJPEG_URL") o.URL } := by
  rw [ovURL, pickRaw]
  by_cases h : env "MJPEG_URL" = []
  · rw [if_neg (by simp [h]), if_pos h]
  · rw [if_pos h, if_neg h]

theorem ovAuto_eq (env : String → Str) (o : MjpegOpts) :
    ovAuto env o =
      { o with
        AutoStopTimer :=
          pickWith goAtoi (env "MJPEG_AUTOSTOP_TIMER") o.AutoStopTimer } := by
  rw [ovAuto, pickWith]
  by_cases h : env "MJPEG_AUTOSTOP_TIMER" = []
  · rw [if_neg (by simp [h]), if_pos h]
  · rw [if_pos h, if_neg h]
    cases hg : goAtoi (env "MJPEG_AUTOSTOP_TIMER") <;> rfl

theorem ovResize_eq (env : String → Str) (o : MjpegOpts) :
    ovResize env o =
      { o with
        Resize := pickWith goParseBool (env "MJPEG_RESIZE") o.Resize } := by
  rw [ovResize, pickWith]
  by_cases h : env "MJPEG_RESIZE" = []
  · rw [if_neg (by simp [h]), if_pos h]
  · rw [if_pos h, if_neg h]
    cases hg : goParseBool (env "MJPEG_RESIZE") <;> rfl

theorem ovWidth_eq (env : String → Str) (o : MjpegOpts) :
    ovWidth env o =
      { o with Width := pickWith goAtoi (env "MJPEG_WIDTH") o.Width } := by
  rw [ovWidth, pickWith]
  by_cases h : env "MJPEG_WIDTH" = []
  · rw [if_neg (by simp [h]), if_pos h]
  · rw [if_pos h, if_neg h]
    cases hg : goAtoi (env "MJPEG_WIDTH") <;> rfl

theorem ovHeight_eq (env : String → Str) (o : MjpegOpts) :
    ovHeight env o =
      { o with
        Height := pickWith goAtoi (env "MJPEG_HEIGHT") o.Height } := by
  rw [ovHeight, pickWith]
  by_cases h : env "MJPEG_HEIGHT" = []
  · rw [if_neg (by simp [h]), if_pos h]
  · rw [if_pos h, if_neg h]
    cases hg : goAtoi (env "MJPEG_HEIGHT") <;> rfl

theorem ovLog_eq (env : String → Str) (o : MjpegOpts) :
    ovLog env o =
      { o with
        EnableLog :=
          pickWith goParseBool (env "MJPEG_ENABLE_LOG") o.EnableLog } := by
  rw [ovLog, pickWith]
  by_cases h : env "MJPEG_ENABLE_LOG" = []
  · rw [if_neg (by simp [h]), if_pos h]
  · rw [if_pos h, if_neg h]
    cases hg : goParseBool (env "MJPEG_ENABLE_LOG") <;> rfl

/-- C10: `loadEnvOverrides` (as invoked by `NewMjpeg`) replaces exactly
those option fields whose environment variable is set to a non-empty value
that parses at the field's type; a field whose variable is unset, empty,
or unparsable keeps the caller-supplied value. -/
theorem c10_env_overrides (env : String → Str) (opts : MjpegOpts) :
    (NewMjpeg env opts).opts =
      { URL := pickRaw (env "MJPEG_URL") opts.URL,
        AutoStopTimer :=
          pickWith goAtoi (env "MJPEG_AUTOSTOP_TIMER") opts.AutoStopTimer,
        Resize := pickWith goParseBool (env "MJPEG_RESIZE") opts.Resize,
        Width := pickWith goAtoi (env "MJPEG_WIDTH") opts.Width,
        Height := pickWith goAtoi (env "MJPEG_HEIGHT") opts.Height,
        EnableLog :=
          pickWith goParseBool (env "MJPEG_ENABLE_LOG") opts.EnableLog } ∧
    (NewMjpeg env opts).status = StatusStopped := by
  refine ⟨?_, rfl⟩
  show loadEnvOverrides env opts = _
  rw [loadEnvOverrides, ovURL_eq, ovAuto_eq, ovResize_eq, ovWidth_eq,
    ovHeight_eq, ovLog_eq]

/-! ## Decode-loop helper lemmas -/

theorem readLine_length (input l r : Str) (h : readLine input = some (l, r)) :
    r.length < input.length := by
  induction input generalizing l r with
  | nil => simp [readLine] at h
  | cons c cs ih =>
    rw [readLine] at h
    by_cases hc : c = '\n'
    · rw [if_pos hc] at h
      obtain ⟨-, h2⟩ := Prod.mk.injEq .. ▸ Option.some.injEq .. ▸ h
      simp [← h2]
    · rw [if_neg hc] at h
      cases hr : readLine cs with
      | none => rw [hr] at h; exact absurd h (by simp)
      | some p =>
        obtain ⟨l', r'⟩ := p
        rw [hr] at h
        obtain ⟨-, h2⟩ := Prod.mk.injEq .. ▸ Option.some.injEq .. ▸ h
        have := ih l' r' hr
        simp [← h2]
        omega

theorem hdrsLoop_length (fuel : Nat) (cl : Int) (input : Str) (c : Int)
    (r : Str) (h : hdrsLoop fuel cl input = some (c, r)) :
    r.length < input.length := by
  induction fuel generalizing cl input with
  | zero => simp [hdrsLoop] at h
  | succ n ih =>
    rw [hdrsLoop] at h
    cases hl : readLine input with
    | none => rw [hl] at h; exact absurd h (by simp)
    | some p =>
      obtain ⟨line, rest⟩ := p
      simp only [hl] at h
      have hlt := readLine_length input line rest hl
      by_cases hb : goTrimSpace line = []
      · rw [if_pos hb] at h
        simp only [Option.some.injEq, Prod.mk.injEq] at h
        obtain ⟨-, h2⟩ := h
        subst h2
        omega
      · rw [if_neg hb] at h
        by_cases hcl : goHasPfx "Content-Length:".data line = true
        · rw [if_pos hcl] at h
          have := ih (sscanfContentLength line cl) rest h
          omega
        · rw [if_neg hcl] at h
          have := ih cl rest h
          omega

theorem readImageHeaders_length (input : Str) (c : Int) (r : Str)
    (h : readImageHeaders input = some (c, r)) : r.length < input.length :=
  hdrsLoop_length (input.length + 1) 0 input c r h

/-- The default branch on an exhausted reader: the `break` only leaves the
`select`, so the iteration changes nothing. -/
theorem stepEv_eof (dec : Str → Option Image) (autoStop : Int)
    (boundary : Str) (st : DState)
    (hex : st.exited = false) (hst : st.status ≠ StatusPaused) :
    stepEv dec autoStop boundary none st [] = (st, []) := by
  rw [stepEv, if_neg (by simp [hex])]
  simp only [readLine]
  rw [if_neg hst]

/-- A paused (or error, or playing) reader with exhausted input spins
without changing anything. -/
theorem runSpin (dec : Str → Option Image) (autoStop : Int) (boundary : Str)
    (k : Nat) (st : DState)
    (hex : st.exited = false) (hst : st.status ≠ StatusPaused) :
    run dec autoStop boundary (List.replicate k none) st [] = (st, []) := by
  induction k with
  | zero => rfl
  | succ n ih =>
    rw [List.replicate_succ, run, stepEv_eof dec autoStop boundary st hex hst]
    exact ih

/-- The default branch when the line read contains the boundary token but
the header block is never terminated: `StatusError`, everything consumed. -/
theorem stepEv_hdrErr (dec : Str → Option Image) (autoStop : Int)
    (boundary : Str) (st : DState) (input line rest : Str)
    (hex : st.exited = false) (hst : st.status ≠ StatusPaused)
    (h1 : readLine input = some (line, rest))
    (h2 : goContains boundary line = true)
    (h3 : readImageHeaders rest = none) :
    stepEv dec autoStop boundary none st input =
      ({ st with status := StatusError }, []) := by
  rw [stepEv, if_neg (by simp [hex])]
  simp only [h1, h2, h3, if_true]
  rw [if_neg hst]

/-- The default branch for a complete part: headers terminated, payload
present; the iteration runs `processAndSendImage` on the payload and the
input advances past the part. -/
theorem stepEv_part (dec : Str → Option Image) (autoStop : Int)
    (boundary : Str) (st : DState) (input line rest rest2 : Str) (cl : Int)
    (hex : st.exited = false) (hst : st.status ≠ StatusPaused)
    (h1 : readLine input = some (line, rest))
    (h2 : goContains boundary line = true)
    (h3 : readImageHeaders rest = some (cl, rest2))
    (h4 : ¬ rest2.length < cl.toNat) :
    stepEv dec autoStop boundary none st input =
      (processAndSendImage dec autoStop st (rest2.take cl.toNat),
        rest2.drop cl.toNat) := by
  rw [stepEv, if_neg (by simp [hex])]
  simp only [h1, h2, h3, if_true]
  rw [if_neg hst, if_neg h4]

/-! ## C1: frame pipeline -/

/-- C1 counterexample: with frame `1` still undelivered in the capacity-1
channel, a newly decoded frame `2` does NOT supersede it: the slot keeps
`1` and `2` is dropped, contradicting "a newly decoded frame supersedes an
undelivered one (later frames replace earlier undrained ones)". -/
theorem c1_counterexample :
    (processAndSendImage (fun _ => some 2) (-1)
        { initD with slot := some 1 } ['x']).slot = some 1 ∧
    ¬ (processAndSendImage (fun _ => some 2) (-1)
        { initD with slot := some 1 } ['x']).slot = some 2 ∧
    (processAndSendImage (fun _ => some 2) (-1)
        { initD with slot := some 1 } ['x']).dropped = [2] := by
  decide

/-- C1 (amended): the pipeline holds at most one undelivered frame and
delivery never blocks the producer, but the policy is drop-newest: with
the slot free a decoded frame is delivered; with a frame undelivered the
new frame is dropped and the old frame retained unchanged. -/
theorem c1_single_slot_drop_newest (dec : Str → Option Image)
    (autoStop : Int) (st : DState) (data : Str) (img : Image)
    (hne : data ≠ []) (hdec : dec data = some img) :
    (st.slot = none →
      (processAndSendImage dec autoStop st data).slot = some img ∧
      (processAndSendImage dec autoStop st data).delivered =
        st.delivered ++ [img] ∧
      (processAndSendImage dec autoStop st data).dropped = st.dropped) ∧
    (∀ f, st.slot = some f →
      processAndSendImage dec autoStop st data =
        { st with dropped := st.dropped ++ [img] }) := by
  constructor
  · intro hslot
    rw [processAndSendImage, if_neg hne]
    simp only [hdec, hslot]
    split <;> simp
  · intro f hslot
    rw [processAndSendImage, if_neg hne]
    simp only [hdec, hslot]

/-- C1 witness: delivering frame `5` into a free slot succeeds. -/
theorem c1_witness :
    (processAndSendImage (fun _ => some 5) 3 initD ['a']).slot = some 5 ∧
    (processAndSendImage (fun _ => some 5) 3 initD ['a']).delivered = [5] := by
  have h := (c1_single_slot_drop_newest (fun _ => some 5) 3 initD ['a'] 5
    (by decide) rfl).1 rfl
  exact ⟨h.1, by simpa using h.2.1⟩

/-! ## C5: decode failure is non-fatal -/

/-- C5: a payload the JPEG decoder rejects is non-fatal: the reader state
(including the published status, the frame slot and the timer) is left
completely unchanged, and the iteration that read the part advances the
input past it, so processing continues with the next part; in particular a
`StatusPlaying` state remains `StatusPlaying` and never becomes
`StatusError`. -/
theorem c5_decode_failure_nonfatal :
    (∀ (dec : Str → Option Image) (autoStop : Int) (st : DState)
        (data : Str), dec data = none →
      processAndSendImage dec autoStop st data = st) ∧
    (∀ (dec : Str → Option Image) (autoStop : Int)
        (boundary : Str) (st : DState) (input line rest rest2 : Str)
        (cl : Int),
      st.exited = false → st.status = StatusPlaying →
      readLine input = some (line, rest) →
      goContains boundary line = true →
      readImageHeaders rest = some (cl, rest2) →
      cl.toNat ≤ rest2.length →
      dec (rest2.take cl.toNat) = none →
      stepEv dec autoStop boundary none st input =
        (st, rest2.drop cl.toNat)) := by
  have part1 : ∀ (dec : Str → Option Image) (autoStop : Int) (st : DState)
      (data : Str), dec data = none →
      processAndSendImage dec autoStop st data = st := by
    intro dec a st data h
    rw [processAndSendImage]
    split
    · rfl
    · rw [h]
  refine ⟨part1, ?_⟩
  intro dec a b st input line rest rest2 cl hex hst h1 h2 h3 h4 h5
  rw [stepEv_part dec a b st input line rest rest2 cl hex
    (by rw [hst]; simp) h1 h2 h3 (by omega)]
  rw [part1 dec a st _ h5]

/-- C5 witness: a part whose 3-byte payload the decoder rejects leaves the
playing state untouched and moves on past the part. -/
theorem c5_witness :
    stepEv (fun _ => none) (-1) "--frame".data none initD
      "--frame\nContent-Length: 3\n\nbad".data = (initD, []) ∧
    processAndSendImage (fun _ => none) (-1) initD "bad".data = initD := by
  constructor
  · have h := c5_decode_failure_nonfatal.2 (fun _ => none) (-1)
      "--frame".data initD "--frame\nContent-Length: 3\n\nbad".data
      "--frame\n".data "Content-Length: 3\n\nbad".data "bad".data 3
      rfl rfl (by decide) (by decide) (by decide) (by decide) rfl
    simpa using h
  · exact c5_decode_failure_nonfatal.1 (fun _ => none) (-1) initD
      "bad".data rfl

/-! ## C6: watchdog arming -/

theorem processAndSendImage_timerInv (dec : Str → Option Image)
    (autoStop : Int) (st : DState) (data : Str) (h : timerInv autoStop st) :
    timerInv autoStop (processAndSendImage dec autoStop st data) := by
  obtain ⟨h1, h2⟩ := h
  rw [processAndSendImage]
  split
  · exact ⟨h1, h2⟩
  split
  · exact ⟨h1, h2⟩
  rename_i img hdec
  split
  · split
    · rename_i ht
      refine ⟨?_, ?_⟩
      · show st.armEvents ++ [autoStop] = _
        rw [h1, ht.1]
        simp
      · show (true = true) ↔ _
        simp [ht.2]
    · rename_i ht
      refine ⟨h1, ?_⟩
      show st.timerStarted = true ↔ 0 < autoStop ∧ st.delivered ++ [img] ≠ []
      cases hb : st.timerStarted with
      | true =>
        have := h2.mp hb
        simp [this.1]
      | false =>
        have hna : ¬ autoStop > 0 := fun hgt => ht ⟨hb, hgt⟩
        simp [hna]
  · exact ⟨h1, h2⟩

theorem stepEv_timerInv (dec : Str → Option Image) (autoStop : Int)
    (boundary : Str) (ev : Option Ev) (st : DState) (input : Str)
    (h : timerInv autoStop st) :
    timerInv autoStop (stepEv dec autoStop boundary ev st input).1 := by
  rw [stepEv.eq_def]
  repeat' split
  all_goals
    first
      | exact h
      | exact processAndSendImage_timerInv dec autoStop st _ h

theorem run_timerInv (dec : Str → Option Image) (autoStop : Int)
    (boundary : Str) (sched : List (Option Ev)) (st : DState) (input : Str)
    (h : timerInv autoStop st) :
    timerInv autoStop (run dec autoStop boundary sched st input).1 := by
  induction sched generalizing st input with
  | nil => exact h
  | cons ev evs ih =>
    rw [run]
    exact ih _ _ (stepEv_timerInv dec autoStop boundary ev st input h)

/-- C6: over any run of the decode loop from a fresh reader, the auto-stop
watchdog is armed exactly once — at the first successfully delivered frame
— with the configured duration, and is never armed when no frame was
delivered, when a frame was merely dropped, or when the configured
duration is non-positive. -/
theorem c6_watchdog_arming (dec : Str → Option Image) (autoStop : Int)
    (boundary : Str) (sched : List (Option Ev)) (input : Str) :
    (run dec autoStop boundary sched initD input).1.armEvents =
      (if 0 < autoStop ∧
          (run dec autoStop boundary sched initD input).1.delivered ≠ []
       then [autoStop] else []) := by
  have hinit : timerInv autoStop initD := by
    constructor <;> simp [initD]
  obtain ⟨h1, h2⟩ := run_timerInv dec autoStop boundary sched initD input hinit
  rw [h1]
  by_cases hb : (run dec autoStop boundary sched initD input).1.timerStarted
    = true
  · rw [if_pos hb, if_pos (h2.mp hb)]
  · rw [if_neg hb, if_neg (fun hc => hb (h2.mpr hc))]

/-! ## C4: unterminated header block -/

/-- C4 counterexample: on the stream `--frame\nContent-Length: 5` (a part
whose header block never reaches a blank line before the reader is
exhausted) the state does transition to `StatusError` and no frame is
delivered, but the image channel is NOT closed: `decodeStream` never
closes `ImageStream` (only `startFetching`'s deferred teardown does, and
no `Stop` was issued), contradicting "the frame source (image channel)
closes". -/
theorem c4_counterexample :
    (run (fun _ => none) (-1) "--frame".data [none] initD
        "--frame\nContent-Length: 5".data).1.status = StatusError ∧
    (run (fun _ => none) (-1) "--frame".data [none] initD
        "--frame\nContent-Length: 5".data).1.delivered = [] ∧
    (run (fun _ => none) (-1) "--frame".data [none] initD
        "--frame\nContent-Length: 5".data).1.closed = false ∧
    (run (fun _ => none) (-1) "--frame".data [none] initD
        "--frame\nContent-Length: 5".data).1.exited = false := by
  decide

/-- C4 (amended): when a part's header block is never terminated by a
blank line before the reader is exhausted, the published state transitions
to `StatusError` and no frame is ever delivered, but the image channel
stays open (and the reader keeps spinning rather than exiting): the final
state differs from the fresh reader state only in `status`. -/
theorem c4_unterminated_header_block (dec : Str → Option Image)
    (autoStop : Int) (boundary input line rest : Str) (k : Nat)
    (h1 : readLine input = some (line, rest))
    (h2 : goContains boundary line = true)
    (h3 : readImageHeaders rest = none) :
    run dec autoStop boundary (List.replicate (k + 1) none) initD input =
      ({ initD with status := StatusError }, []) := by
  rw [List.replicate_succ, run]
  have hstep := stepEv_hdrErr dec autoStop boundary initD input line rest
    rfl (by simp [initD]) h1 h2 h3
  simp only [hstep]
  exact runSpin dec autoStop boundary k _ rfl (by simp [initD])

/-- C4 witness: the amended theorem evaluated on the concrete malformed
stream `--frame\nContent-Length: 5`. -/
theorem c4_witness :
    run (fun _ => none) (-1) "--frame".data [none, none] initD
      "--frame\nContent-Length: 5".data =
      ({ initD with status := StatusError }, []) :=
  c4_unterminated_header_block (fun _ => none) (-1) "--frame".data
    "--frame\nContent-Length: 5".data "--frame\n".data
    "Content-Length: 5".data 1 (by decide) (by decide) (by decide)

/-! ## C9: pause and resume -/

theorem processAndSendImage_delivered (dec : Str → Option Image)
    (autoStop : Int) (st : DState) (data : Str) :
    (processAndSendImage dec autoStop st data).delivered = st.delivered ∨
    ∃ x, (processAndSendImage dec autoStop st data).delivered =
      st.delivered ++ [x] := by
  rw [processAndSendImage]
  split
  · exact Or.inl rfl
  split
  · exact Or.inl rfl
  rename_i img hdec
  split
  · split
    · exact Or.inr ⟨img, rfl⟩
    · exact Or.inr ⟨img, rfl⟩
  · exact Or.inl rfl

/-- C9: (i) while the state is `StatusPaused` the reader performs no work
at all: an arbitrary number of default cycles consumes no input and
delivers nothing; (ii) a pause or resume signal is observed at the start
of an iteration (the `select` case), before any stream data is touched —
never mid-frame; (iii) delivery never reprocesses old data: each iteration
appends at most one frame, and when it does deliver one it has strictly
consumed fresh input. -/
theorem c9_pause_resume (dec : Str → Option Image) (autoStop : Int)
    (boundary : Str) :
    (∀ (k : Nat) (st : DState) (input : Str),
      st.status = StatusPaused → st.exited = false →
      run dec autoStop boundary (List.replicate k none) st input =
        (st, input)) ∧
    (∀ (st : DState) (input : Str), st.exited = false →
      stepEv dec autoStop boundary (some .pauseSig) st input =
        ({ st with status := StatusPaused }, input) ∧
      stepEv dec autoStop boundary (some .resumeSig) st input =
        ({ st with status := StatusPlaying }, input)) ∧
    (∀ (ev : Option Ev) (st : DState) (input : Str),
      ((stepEv dec autoStop boundary ev st input).1.delivered =
          st.delivered ∨
        ∃ x, (stepEv dec autoStop boundary ev st input).1.delivered =
          st.delivered ++ [x]) ∧
      ((stepEv dec autoStop boundary ev st input).1.delivered ≠
          st.delivered →
        (stepEv dec autoStop boundary ev st input).2.length <
          input.length)) := by
  have hpausestep : ∀ (st : DState) (input : Str),
      st.status = StatusPaused → st.exited = false →
      stepEv dec autoStop boundary none st input = (st, input) := by
    intro st input hp hex
    rw [stepEv, if_neg (by simp [hex]), if_pos hp]
  refine ⟨?_, ?_, ?_⟩
  · intro k
    induction k with
    | zero => intro st input _ _; rfl
    | succ n ih =>
      intro st input hp hex
      rw [List.replicate_succ, run]
      simp only [hpausestep st input hp hex]
      exact ih st input hp hex
  · intro st input hex
    constructor <;> rw [stepEv, if_neg (by simp [hex])]
  · intro ev st input
    rw [stepEv.eq_def]
    split
    · exact ⟨Or.inl rfl, fun hc => absurd rfl hc⟩
    split
    · exact ⟨Or.inl rfl, fun hc => absurd rfl hc⟩
    · exact ⟨Or.inl rfl, fun hc => absurd rfl hc⟩
    · exact ⟨Or.inl rfl, fun hc => absurd rfl hc⟩
    · exact ⟨Or.inl rfl, fun hc => absurd rfl hc⟩
    · split
      · exact ⟨Or.inl rfl, fun hc => absurd rfl hc⟩
      · split
        · exact ⟨Or.inl rfl, fun hc => absurd rfl hc⟩
        rename_i p line rest hline
        split
        · split
          · exact ⟨Or.inl rfl, fun hc => absurd rfl hc⟩
          rename_i cl rest2 hhdrs
          split
          · exact ⟨Or.inl rfl, fun hc => absurd rfl hc⟩
          · refine ⟨processAndSendImage_delivered dec autoStop st _, ?_⟩
            intro _
            have e1 := readLine_length input line rest hline
            have e2 := readImageHeaders_length rest cl rest2 hhdrs
            have e3 : (rest2.drop cl.toNat).length ≤ rest2.length := by
              rw [List.length_drop]
              omega
            simp only []
            omega
        · refine ⟨Or.inl rfl, fun _ => ?_⟩
          have := readLine_length input line rest hline
          simpa using this

/-- C9 witness: a paused reader delivers nothing and consumes nothing over
three cycles; a pause signal only flips the status; a plain step on a
one-part stream appends at most one frame. -/
theorem c9_witness :
    run (fun _ => some 4) 2 "--frame".data [none, none, none]
      { initD with status := StatusPaused }
      "--frame\nContent-Length: 1\n\nz".data =
      ({ initD with status := StatusPaused },
        "--frame\nContent-Length: 1\n\nz".data) ∧
    stepEv (fun _ => some 4) 2 "--frame".data (some .pauseSig) initD
      "abc".data = ({ initD with status := StatusPaused }, "abc".data) := by
  constructor
  · exact (c9_pause_resume (fun _ => some 4) 2 "--frame".data).1 3
      { initD with status := StatusPaused }
      "--frame\nContent-Length: 1\n\nz".data rfl rfl
  · exact (((c9_pause_resume (fun _ => some 4) 2 "--frame".data).2.1
      initD "abc".data rfl).1)

/-! ## C2: `Stop` and the shutdown ordering -/

/-- C2 counterexample: `Stop` is only a rendezvous send of `StopStream` on
the unbuffered `internalCH`, which the reader's `select` also receives
from (and whose `switch` silently drops a `StopStream`); after that single
step `Stop` has already returned while the supervisor is still in its
loop (it never received the command), the reader is still running, the
response body is not released and the published state is not
`StatusStopped` — contradicting "Stop returns to its caller only after
the reader task has fully exited and the transport handle has been
released". -/
theorem c2_counterexample :
    StopReaches stopInit stopAfterReaderDrop ∧
    stopAfterReaderDrop.caller = .returned ∧
    stopAfterReaderDrop.sup = .loop ∧
    stopAfterReaderDrop.rdr = .running ∧
    stopAfterReaderDrop.bodyReleased = false ∧
    ¬ stopAfterReaderDrop.status = StatusStopped := by
  refine ⟨Relation.ReflTransGen.single ?_, rfl, rfl, rfl, rfl, by decide⟩
  exact StopStep.rendezvousReader stopInit rfl rfl

theorem stopInv_step (s t : StopState) (hst : StopStep s t)
    (h : stopInv s) : stopInv t := by
  obtain ⟨h1, h2, h3, h4, h5, h6, h7⟩ := h
  cases hst with
  | rendezvous e1 e2 =>
    refine ⟨?_, ?_, ?_, ?_, ?_, ?_, ?_⟩ <;> simp_all [supRank]
  | rendezvousReader e1 e2 =>
    refine ⟨?_, ?_, ?_, ?_, ?_, ?_, ?_⟩ <;> simp_all [supRank]
  | closeStopCh e =>
    refine ⟨?_, ?_, ?_, ?_, ?_, ?_, ?_⟩ <;> simp_all [supRank]
  | readerExit e1 e2 =>
    refine ⟨?_, ?_, ?_, ?_, ?_, ?_, ?_⟩ <;> simp_all [supRank]
  | wgWait e1 e2 =>
    refine ⟨?_, ?_, ?_, ?_, ?_, ?_, ?_⟩ <;> simp_all [supRank]
  | releaseBody e =>
    refine ⟨?_, ?_, ?_, ?_, ?_, ?_, ?_⟩ <;> simp_all [supRank]
  | closeStream e =>
    refine ⟨?_, ?_, ?_, ?_, ?_, ?_, ?_⟩ <;> simp_all [supRank]
  | publishStopped e =>
    refine ⟨?_, ?_, ?_, ?_, ?_, ?_, ?_⟩ <;> simp_all [supRank]

theorem stopInv_reachable (s : StopState) (h : StopReaches stopInit s) :
    stopInv s := by
  induction h with
  | refl =>
    refine ⟨?_, ?_, ?_, ?_, ?_, ?_, ?_⟩ <;> simp [stopInit, supRank]
  | tail hreach hstep ih => exact stopInv_step _ _ hstep ih

/-- C2 (amended): `Stop` returns as soon as its `StopStream` send is
received — by either the supervisor or the reader (whose `switch` then
silently drops the command, so no teardown happens at all); `Stop` never
waits for teardown.  If the supervisor does make any shutdown progress,
`Stop` has returned, and the teardown ordering on the supervisor side is
guaranteed: the response body is only released after the reader has
exited, and the published state is `StatusStopped` only once the reader
has exited, the body has been released and the image channel has been
closed. -/
theorem c2_stop_shutdown_order (s : StopState)
    (h : StopReaches stopInit s) :
    (1 ≤ supRank s.sup → s.caller = .returned) ∧
    (s.bodyReleased = true → s.rdr = .exitedPh) ∧
    (s.status = StatusStopped →
      s.rdr = .exitedPh ∧ s.bodyReleased = true ∧ s.imgChClosed = true) := by
  obtain ⟨h1, h2, h3, h4, h5, h6, h7⟩ := stopInv_reachable s h
  refine ⟨h1, fun hb => h3 ?_, fun hs => ?_⟩
  · have := h4.mp hb
    omega
  · have hr := h6.mp hs
    exact ⟨h3 (by omega), h4.mpr (by omega), h5.mpr (by omega)⟩

/-- C2 witness: the shutdown-ordering theorem applied to the concrete
state in which the full stop protocol has run to completion (the
reachability hypothesis is discharged by the explicit seven-step trace). -/
theorem c2_witness :
    stopDone.rdr = .exitedPh ∧ stopDone.bodyReleased = true ∧
    stopDone.imgChClosed = true := by
  have hr : StopReaches stopInit stopDone := by
    refine Relation.ReflTransGen.tail (Relation.ReflTransGen.tail
      (Relation.ReflTransGen.tail (Relation.ReflTransGen.tail
        (Relation.ReflTransGen.tail (Relation.ReflTransGen.tail
          (Relation.ReflTransGen.single
            (StopStep.rendezvous stopInit rfl rfl))
          (StopStep.closeStopCh _ rfl))
        (StopStep.readerExit _ rfl rfl))
      (StopStep.wgWait _ rfl rfl))
      (StopStep.releaseBody _ rfl))
      (StopStep.closeStream _ rfl))
      (StopStep.publishStopped _ rfl)
  exact (c2_stop_shutdown_order stopDone hr).2.2 rfl

/-! ## C3: `Start` while already `Playing` -/

/-- C3 counterexample: calling `Start` on a session that is already
`Playing` (one supervisor, one reader, channel generation 0 live) spawns
no second decode reader, but it is NOT a no-op and it does leak per-cycle
resources: it closes the live image channel (generation 0), allocates a
replacement, and spawns a second `startFetching` supervisor goroutine —
contradicting "a no-op that ... leaks no per-cycle resources". -/
theorem c3_counterexample :
    (startCall sessInit).status = StatusPlaying ∧
    (startCall (startCall sessInit)).readerCount = 1 ∧
    ¬ startCall (startCall sessInit) = startCall sessInit ∧
    (startCall (startCall sessInit)).supervisorCount = 2 ∧
    (startCall (startCall sessInit)).closedGens = [0] := by
  decide

/-- C3 (amended): calling `Start` while the state is already
`StatusPlaying` spawns no second decode reader (so no duplicate frames)
and the state stays `StatusPlaying`, but it is not a no-op: it closes the
current image channel, replaces it with a fresh one, and spawns one more
supervisor goroutine (a per-cycle resource). -/
theorem c3_start_no_second_reader (s : SessState)
    (h : s.status = StatusPlaying) :
    (startCall s).readerCount = s.readerCount ∧
    (startCall s).status = StatusPlaying ∧
    (startCall s).supervisorCount = s.supervisorCount + 1 ∧
    (startCall s).imageStream = some s.nextGen ∧
    (∀ g, s.imageStream = some g →
      (startCall s).closedGens = s.closedGens ++ [g]) := by
  rw [startCall]
  rw [if_pos (by simpa using h)]
  refine ⟨rfl, h, rfl, rfl, fun g hg => by simp [hg]⟩

/-- C3 witness: the amended theorem applied to the session state produced
by a first `Start` on a fresh session. -/
theorem c3_witness :
    (startCall (startCall sessInit)).readerCount =
      (startCall sessInit).readerCount ∧
    (startCall (startCall sessInit)).supervisorCount =
      (startCall sessInit).supervisorCount + 1 := by
  have h := c3_start_no_second_reader (startCall sessInit) (by decide)
  exact ⟨h.1, h.2.2.1⟩

end Gomjpeg
